import Mathlib

/-!
Verification development for the sfdx-data-splitter repository.

The development shallowly embeds the JavaScript sources:
  * lib/messages.js        (the localized message catalog and getMessage)
  * lib/pluginError.js     (the classified-error factory)
  * lib/data/dataApi.js    (the record-file splitter: breakupDataFile, splitFiles)
  * lib/utils.js           (the command pipeline: execCommand, commandPreFilter,
                            logSuccess, logError, logCommandComplete, exit)

JavaScript strings are Lean Strings; record objects are an opaque type
parameter; JavaScript numbers that the code keeps integral (runtimes,
counters, timestamps) are Int or Nat; promise chains are modeled by an
explicit result-plus-event-log semantics; code that throws returns Except.
-/

namespace SfdxSplit

/-! ## String helpers (modeling Node path.basename, String.prototype.split,
and util.format). Implemented on character lists so that every definition
evaluates inside the kernel. -/

/-- Split a character list at every occurrence of the character c,
modeling the JavaScript call str.split(sep) for a one-character sep
(the only form the repository uses, sep being "." or "/").
Like in JavaScript, the result always has at least one element. -/
def splitOnChar (c : Char) : List Char → List (List Char)
  | [] => [[]]
  | a :: as =>
    match splitOnChar c as with
    | [] => if a = c then [[], []] else [[a]]
    | g :: gs => if a = c then [] :: g :: gs else (a :: g) :: gs

/-- Node path.basename for POSIX paths without trailing separators:
the part of the path after the last slash. -/
def basename (p : String) : String :=
  String.mk ((splitOnChar '/' p.toList).getLastD p.toList)

/-- The fname[0] and fname[1] pieces of dataApi.js line 41:
path.basename(f).split(".") indexed at 0 and 1.  A missing index 1
stringifies as "undefined" in the JavaScript concatenation. -/
def chunkNameParts (f : String) : String × String :=
  let fname := splitOnChar '.' (basename f).toList
  (String.mk (fname.headD []), String.mk ((fname.getD 1 "undefined".toList)))

/-- Does the first list occur as an initial segment of the second? -/
def charsStartWith {β : Type} [DecidableEq β] : List β → List β → Bool
  | [], _ => true
  | _ :: _, [] => false
  | a :: as, b :: bs => decide (a = b) && charsStartWith as bs

/-- Does the first list occur as a contiguous segment of the second? -/
def charsContain {β : Type} [DecidableEq β] (pat : List β) : List β → Bool
  | [] => charsStartWith pat []
  | s :: rest => charsStartWith pat (s :: rest) || charsContain pat rest

/-- str.match(/pat/) for a pattern with no regex metacharacters: does pat
occur as a substring of s? -/
def strContainsPat (s pat : String) : Bool := charsContain pat.toList s.toList

/-- util.inspect applied to a string: the string wrapped in single quotes.
The quote character is written by code to keep the sources plain. -/
def inspectStr (s : String) : String := "\x27" ++ s ++ "\x27"

/-- The message of the Error thrown by messages.js line 51 when a label is
missing: util.format(bundleLocale.UndefinedLocalizationLabel, bundle, label,
locale).  The UndefinedLocalizationLabel entry is absent from every bundle of
this repository, so the first argument is undefined and util.format falls
back to inspecting all arguments and joining them with spaces. -/
def undefinedLabelMessage (bundle label locale : String) : String :=
  "undefined " ++ inspectStr bundle ++ " " ++ inspectStr label ++ " " ++ inspectStr locale

/-! ## lib/messages.js -/

/-- The default.en_US bundle (messages.js lines 7-13). -/
def defaultBundle : List (String × String) :=
  [("displayCommandDataSplitHelp",
    "Break up large data files into file with 200 or less records")]

/-- The data.en_US bundle (messages.js lines 15-21). -/
def dataBundle : List (String × String) :=
  [("name", "data"),
   ("mainTopicDescriptionHelp", "Utility for manipulating data"),
   ("mainTopicLongDescriptionHelp", "Utility for manipulating data")]

/-- The data_split.en_US bundle (messages.js lines 23-32). -/
def dataSplitBundle : List (String × String) :=
  [("help", "Split data files that have more than 200 records into smaller bits"),
   ("description", "Split large data files into smaller ones"),
   ("longDescription", "Split large data files into smaller ones"),
   ("GeneralError", "A general error for the Data split command."),
   ("dataSplitFileNotFound", "Could not find specified file")]

/-- messages[bundle][locale] for locale en_US; none models reading a
property of an undefined bundle, which throws a TypeError in JavaScript. -/
def bundleLocaleOf (bundle : String) : Option (List (String × String)) :=
  if bundle = "default" then some defaultBundle
  else if bundle = "data" then some dataBundle
  else if bundle = "data_split" then some dataSplitBundle
  else none

/-- util.format(text, ...args) for a text with no percent specifiers
(no catalog text of this repository contains one): the extra arguments are
appended, separated by spaces. -/
def jsFormatArgs (text : String) (args : List String) : String :=
  args.foldl (fun acc a => acc ++ " " ++ a) text

/-- getMessage(label, args, bundle) of messages.js lines 42-60.
Except.error models a thrown Error carrying the given message.
The args argument distinguishes an omitted argument (none, the
isNullOrUndefined branch) from a provided token array (some). -/
def getMessage (label : String) (args : Option (List String)) (bundle : String) :
    Except String String :=
  match bundleLocaleOf bundle with
  | none => Except.error "TypeError: Cannot read property of undefined"
  | some msgs =>
    match msgs.lookup label with
    | none => Except.error (undefinedLabelMessage bundle label "en_US")
    | some text =>
      match args with
      | none => Except.ok text
      | some as => Except.ok (jsFormatArgs text as)

/-! ## lib/pluginError.js -/

/-- An error key: either a plain string key (looked up in the default
bundle) or a composite with keyName and bundle. -/
inductive MsgKey where
  | plain (key : String)
  | withBundle (keyName bundle : String)
deriving DecidableEq

/-- The key name of a MsgKey (pluginError.js line 39). -/
def msgKeyName : MsgKey → String
  | MsgKey.plain k => k
  | MsgKey.withBundle k _ => k

/-- The updateError lookup of pluginError.js lines 24-31. -/
def resolveMsgKey (k : MsgKey) (tokens : Option (List String)) : Except String String :=
  match k with
  | MsgKey.plain key => getMessage key tokens "default"
  | MsgKey.withBundle key b => getMessage key tokens b

/-- The PluginErrors hash of pluginError.js lines 8-11. -/
def pluginErrorsMap : List (String × String) :=
  [("dataSplitFileNotFound", "InvalidDataImport"),
   ("sourcePushFailed", "DeployFailed")]

/-- A JavaScript Error value as the repository uses it: message, optional
action, and a taxonomy name (new Error() starts with name Error). -/
structure JsError where
  message : String
  action : Option String := none
  name : String := "Error"
deriving DecidableEq

/-- PluginError(errorKey, errorTokens, actionKey, actionTokens) of
pluginError.js lines 20-43.  Except.error models a getMessage lookup
throwing out of the factory. -/
def pluginError (errorKey : MsgKey) (errorTokens : Option (List String))
    (actionKey : Option MsgKey) (actionTokens : Option (List String)) :
    Except String JsError := do
  let msg ← resolveMsgKey errorKey errorTokens
  let act ← match actionKey with
    | none => pure (none : Option String)
    | some k => Except.map some (resolveMsgKey k actionTokens)
  let keyName := msgKeyName errorKey
  pure { message := msg, action := act,
         name := (pluginErrorsMap.lookup keyName).getD keyName }

/-- The error path of splitFiles (dataApi.js lines 54-57): when the
manifest path fails the existence check, the code evaluates
pluginError(messages.getMessage(dataSplitFileNotFound, [], data_split)),
passing the resolved message text to pluginError as a lookup key. -/
def dataSplitNotFoundThrown : Except String JsError :=
  match getMessage "dataSplitFileNotFound" (some []) "data_split" with
  | Except.error e => Except.error e
  | Except.ok m => pluginError (MsgKey.plain m) none none none

/-! ## lib/data/dataApi.js: the splitter -/

/-- The chunking for-loop of breakupDataFile (dataApi.js lines 40-48):
for (i = 0, j = records.length; i < j; i += 200) it emits the pair of the
chunk file name fname0 + i + "." + fname1 and the slice
records.slice(i, i + 200).  The fuel argument only bounds the iteration
count so the recursion is structural; records.length iterations always
suffice because i grows by 200 each step. -/
def breakupFor {α : Type} (namePre nameExt : String) (records : List α) :
    Nat → Nat → List (String × List α)
  | 0, _ => []
  | fuel + 1, i =>
    if i < records.length then
      (namePre ++ toString i ++ "." ++ nameExt, (records.drop i).take 200) ::
        breakupFor namePre nameExt records fuel (i + 200)
    else []

/-- All chunk writes of one oversized data file, in loop order. -/
def breakupPieces {α : Type} (namePre nameExt : String) (records : List α) :
    List (String × List α) :=
  breakupFor namePre nameExt records records.length 0

/-- The mutable module state of dataApi.js.  temparray is an array object;
every rebinding temparray = [] creates a fresh object while p.files =
temparray stores a reference to the current one, so the state keeps every
object ever bound (objs), the index of the currently bound one (cur), and
the data files written so far (writes). -/
structure SplitState (α : Type) where
  objs : List (List String)
  cur : Nat
  writes : List (String × List α)
deriving DecidableEq

/-- The module-load state: temparray = [] (dataApi.js line 9). -/
def initSplitState {α : Type} : SplitState α := ⟨[[]], 0, []⟩

/-- temparray.push(n): appends to the currently bound array object. -/
def pushName {α : Type} (s : SplitState α) (n : String) : SplitState α :=
  { s with objs := s.objs.set s.cur (s.objs.getD s.cur [] ++ [n]) }

/-- temparray = []: binds a fresh empty array object (dataApi.js line 39). -/
def rebindTemp {α : Type} (s : SplitState α) : SplitState α :=
  { s with objs := s.objs ++ [[]], cur := s.objs.length }

/-- writeDataFile (dataApi.js lines 26-29): write the chunk file, then
push its file name. -/
def writeDataFile {α : Type} (s : SplitState α) (w : String × List α) : SplitState α :=
  pushName { s with writes := s.writes ++ [w] } w.1

/-- breakupDataFile(datafolder, f) (dataApi.js lines 31-49).  The data
folder is modeled as the map from a file name to the records parsed from
that file.  At most 200 records: push the original name, write nothing.
Otherwise: rebind temparray to a fresh array and write and push every
200-record chunk. -/
def breakupDataFile {α : Type} (folder : String → List α) (f : String)
    (s : SplitState α) : SplitState α :=
  let records := folder f
  if records.length ≤ 200 then pushName s f
  else
    (breakupPieces (chunkNameParts f).1 (chunkNameParts f).2 records).foldl
      writeDataFile (rebindTemp s)

/-- One plan entry of splitFiles (dataApi.js lines 59-66): break up each
referenced file in order. -/
def splitPlanEntry {α : Type} (folder : String → List α) (s : SplitState α)
    (files : List String) : SplitState α :=
  files.foldl (fun st f => breakupDataFile folder f st) s

/-- The whole splitFiles loop over the plan.  Besides the final state it
returns, for each plan entry, the index of the array object that
p.files = temparray stored for that entry. -/
def splitFilesRun {α : Type} (folder : String → List α) (plan : List (List String)) :
    SplitState α × List Nat :=
  plan.foldl
    (fun acc files =>
      let s := splitPlanEntry folder acc.1 files
      (s, acc.2 ++ [s.cur]))
    (initSplitState, [])

/-- The files lists of the manifest as last written to disk: each entry
holds the final contents of the array object it stored, because later
pushes keep mutating that object until the next rebinding. -/
def finalManifest {α : Type} (folder : String → List α) (plan : List (List String)) :
    List (List String) :=
  let r := splitFilesRun folder plan
  r.2.map (fun i => r.1.objs.getD i [])

/-- The demonstration data folder used by the concrete evaluations:
big.json parses to 201 records, every other file to a single record. -/
def demoFolder : String → List Unit :=
  fun f => if f = "big.json" then List.replicate 201 () else [()]

/-! ## The promise-chain semantics used for lib/utils.js

A pipeline computation is a pair of the list of user-visible actions it
performed (spinner, reporting, exit decisions) and an Except result: the
value the promise resolved with, or the value it rejected with.  pthen,
pcatch and pfinally mirror the bluebird combinators the source chains. -/

/-- A user-visible action of the command pipeline. -/
inductive Ev where
  | startSpin
  | stopSpin
  | logSuccessEv
  | logErrorEv
  | serverLog
  | exited (code : Nat)
deriving DecidableEq

/-- A pipeline computation: performed actions plus settled result. -/
def PM (Er A : Type) : Type := List Ev × Except Er A

/-- An already-resolved computation with no actions. -/
def pok {Er A : Type} (a : A) : PM Er A := ([], Except.ok a)

/-- promise.then(f): run f on the resolved value, skip it on rejection. -/
def pthen {Er A B : Type} (m : PM Er A) (f : A → PM Er B) : PM Er B :=
  match m with
  | (l, Except.ok a) => (l ++ (f a).1, (f a).2)
  | (l, Except.error e) => (l, Except.error e)

/-- promise.catch(h): run h on the rejection value, skip it on success. -/
def pcatch {Er A : Type} (m : PM Er A) (h : Er → PM Er A) : PM Er A :=
  match m with
  | (_, Except.ok _) => m
  | (l, Except.error e) => (l ++ (h e).1, (h e).2)

/-- promise.finally(f): always run f; keep the original settlement when f
resolves, and let a rejection of f win otherwise (bluebird semantics). -/
def pfinally {Er A : Type} (m : PM Er A) (f : PM Er Unit) : PM Er A :=
  match f with
  | (l, Except.ok _) => (m.1 ++ l, m.2)
  | (l, Except.error e) => (m.1 ++ l, Except.error e)

/-! ## Telemetry aggregation (utils.js logCommandComplete and calcUsage) -/

/-- One command execution pulled from the sfdx analytics feed
(the elements of JSON.parse(analyticsCmd.stdout).commands).  Runtimes are
integer milliseconds. -/
structure CmdSample where
  command : String
  version : String
  pluginVersion : Option String
  runtime : Int
  status : Int
deriving DecidableEq

/-- A usages[commandKey] record (utils.js lines 277-288). -/
structure UsageRecord where
  commandName : String
  toolbeltVersion : String
  hubOrgId : Option String
  usageDate : String
  totalExecutions : Nat
  totalErrors : Nat
  avgRuntime : Int
  minRuntime : Int
  maxRuntime : Int
deriving DecidableEq

/-- Math.round(p / q) for integer p and positive integer q, computed in
integer arithmetic: Math.round rounds half toward positive infinity, so
Math.round(p / q) equals the floor of (2p + q) / 2q; Lean integer division
by a positive divisor is that floor.  The lemma jsRoundDiv_eq_round below
proves the equivalence with round on rationals. -/
def jsRoundDiv (p : Int) (q : Nat) : Int :=
  (2 * p + q) / (2 * q : Nat)

/-- The commandKey and combined version of utils.js lines 268-274:
version with plugin_version appended after a space when that field is
truthy (undefined or empty string are falsy). -/
def commandVersionKey (c : CmdSample) : String × String :=
  let version :=
    match c.pluginVersion with
    | none => c.version
    | some pv => if pv = "" then c.version else c.version ++ " " ++ pv
  (c.command ++ "-" ++ version, version)

/-- usages[commandKey] = record: replace the record stored under the key,
or add it when absent (JavaScript object property assignment). -/
def setUsage (l : List (String × UsageRecord)) (k : String) (v : UsageRecord) :
    List (String × UsageRecord) :=
  if (l.lookup k).isSome then l.map (fun p => if p.1 = k then (k, v) else p)
  else l ++ [(k, v)]

/-- The body of the commands.forEach of calcUsage (utils.js lines 267-306):
initialize the UsageRecord on first sight, bump totalErrors on nonzero
status, update the running average with the pre-increment execution count,
increment the count, then update min and max runtimes. -/
def applyCommand (hubOrgId : Option String) (usageDate : String)
    (usages : List (String × UsageRecord)) (c : CmdSample) :
    List (String × UsageRecord) :=
  let kv := commandVersionKey c
  let u0 :=
    match usages.lookup kv.1 with
    | some u => u
    | none =>
        { commandName := c.command, toolbeltVersion := kv.2, hubOrgId := hubOrgId,
          usageDate := usageDate, totalExecutions := 0, totalErrors := 0,
          avgRuntime := 0, minRuntime := c.runtime, maxRuntime := c.runtime }
  let u1 := if c.status ≠ 0 then { u0 with totalErrors := u0.totalErrors + 1 } else u0
  let u2 := { u1 with
    avgRuntime :=
      jsRoundDiv (c.runtime + u1.avgRuntime * u1.totalExecutions) (u1.totalExecutions + 1) }
  let u3 := { u2 with totalExecutions := u2.totalExecutions + 1 }
  let u4 :=
    if c.runtime > u3.maxRuntime then { u3 with maxRuntime := c.runtime }
    else if c.runtime < u3.minRuntime then { u3 with minRuntime := c.runtime }
    else u3
  setUsage usages kv.1 u4

/-- The persisted sfdx-usage.json contents: {startTime: epoch-ms}. -/
structure UsageContents where
  startTime : Option Int
deriving DecidableEq

/-- The external outcomes that logCommandComplete depends on.  Every
Except-valued field models an asynchronous collaborator that may reject
(config file read and writes, hub-org config fetch, server submission);
analyticsStatus and analyticsParsed model the sfdx analytics subprocess
exit status and the attempted JSON.parse of its stdout (none is a parse
failure); the timestamps model Date.now and the current day boundary. -/
structure TelemParams (Er : Type) where
  nowMs : Int
  dayStartMs : Int
  usageDate : String
  getConfig : Except Er UsageContents
  saveInit : Except Er Unit
  hubGetConfig : Except Er String
  analyticsStatus : Int
  analyticsParsed : Option (List CmdSample)
  logServerUsages : List UsageRecord → Except Er Unit
  saveAfterFlush : Except Er Unit

/-- Milliseconds in a day (utils.js line 234). -/
def dayInMilliseconds : Int := 1000 * 60 * 60 * 24

/-- calcUsage (utils.js lines 248-311): resolve silently when the
analytics subprocess exits 1 or its output fails to parse; otherwise fold
every command sample into the usages map and submit the records. -/
def calcUsage {Er : Type} (p : TelemParams Er) (hubOrgId : Option String) : PM Er Unit :=
  if p.analyticsStatus = 1 then pok ()
  else
    match p.analyticsParsed with
    | none => pok ()
    | some cmds =>
        ([], p.logServerUsages
          ((cmds.foldl (applyCommand hubOrgId p.usageDate) []).map Prod.snd))

/-- The day-rollover flush of logCommandComplete (utils.js lines 314-331):
fetch the hub org config, aggregate and submit the analytics feed, then
persist the reset start time and clear the analytics source. -/
def telemDayFlow {Er : Type} (p : TelemParams Er) : PM Er Unit :=
  pthen (pthen ([], p.hubGetConfig) (fun orgId => calcUsage p (some orgId)))
    (fun _ => ([], p.saveAfterFlush))

/-- The body run on the loaded usage state (utils.js lines 241-334): seed
startTime with the current day boundary when absent (the day check then
compares now against the fresh boundary and the save becomes the returned
promise); when a day has elapsed run the flush, else resolve. -/
def telemBody {Er : Type} (p : TelemParams Er) (contents : UsageContents) : PM Er Unit :=
  match contents.startTime with
  | none =>
      if p.nowMs - p.dayStartMs ≥ dayInMilliseconds then telemDayFlow p
      else ([], p.saveInit)
  | some st =>
      if p.nowMs - st ≥ dayInMilliseconds then telemDayFlow p
      else pok ()

/-- logCommandComplete (utils.js lines 228-337): load the persisted usage
state, run the body, and swallow every rejection of the flow in the final
catch. -/
def logCommandComplete {Er : Type} (p : TelemParams Er) : PM Er Unit :=
  pcatch (pthen ([], p.getConfig) (telemBody p)) (fun _ => pok ())

/-! ## Result and error reporting (utils.js logSuccess and logError) -/

/-- The return value of command.getColumnData(): a plain object keyed by
table name (each value a column spec, kept opaque) or a flat column spec
for a single table. -/
inductive ColumnData where
  | tables (keys : List String)
  | single
deriving DecidableEq

/-- The human-mode half of logSuccess (utils.js lines 109-157) together
with the api-mode branch (lines 106-108).  The returned list holds the
lines logged for the user; Except.error is a thrown getMessage lookup.
The result object is abstracted to whether it is an empty array
(isEmptyArrayResult) plus the row count found under each table key
(rowsOf, modeling lodash get). -/
def logSuccess (apiMode : Bool) (colData : Option ColumnData)
    (emptyResultMessage : Option (String → Option String))
    (humanSuccessMessage : Option String)
    (isEmptyArrayResult : Bool) (rowsOf : String → Nat) :
    Except String (List String) :=
  if apiMode then Except.ok ["json"]
  else if isEmptyArrayResult then
    match getMessage "noResultsFound" none "default" with
    | Except.error e => Except.error e
    | Except.ok m => Except.ok [m]
  else
    match colData with
    | some (ColumnData.tables keys) =>
        keys.foldlM
          (fun acc k =>
            if rowsOf k = 0 then
              match getMessage "noResultsFound" none "default" with
              | Except.error e => Except.error e
              | Except.ok m0 =>
                  match emptyResultMessage with
                  | some f => Except.ok (acc ++ [(f k).getD m0])
                  | none => Except.ok (acc ++ [m0])
            else Except.ok (acc ++ ["table " ++ k]))
          []
    | some ColumnData.single => Except.ok ["table"]
    | none =>
        match humanSuccessMessage with
        | some m => if m = "" then Except.ok [] else Except.ok [m]
        | none => Except.ok []

/-- The remediation-action step of logError (utils.js lines 172-176):
when the session is token-based, the error carries no action, and the
message contains one of the two literal patterns, attach the canned
action resolved by getMessage. -/
def logErrorActionStep (usingAccessToken : Bool) (err : JsError) :
    Except String JsError :=
  if usingAccessToken && err.action.isNone &&
      (strContainsPat err.message "Session expired or invalid" ||
       strContainsPat err.message "Destination URL not reset") then
    match getMessage "invalidInstanceUrlForAccessTokenAction" none "default" with
    | Except.error e => Except.error e
    | Except.ok a => Except.ok { err with action := some a }
  else Except.ok err

/-! ## The command invoker (utils.js execCommand and commandPreFilter) -/

/-- The success continuation of execCommand (utils.js lines 446-452):
stop the spinner, invoke the success reporter synchronously - its outcome
is the ls parameter, and it can be a throw: the logSuccess embedding in
this file throws for an empty-array result in human mode - then run the
telemetry flush and resolve with the business result.  A reporter throw
rejects the continuation before the telemetry step and loses the result
to the failure branch. -/
def successFlow {Er A : Type} (t : TelemParams Er) (ls : Except Er Unit) (a : A) :
    PM Er (Option A) :=
  pthen
    (pthen (pthen ([Ev.stopSpin], Except.ok ()) (fun _ => ([Ev.logSuccessEv], ls)))
      (fun _ => logCommandComplete t))
    (fun _ => ([], Except.ok (some a)))

/-- The failure continuation of execCommand (utils.js lines 459-473):
stop the spinner and invoke the error reporter synchronously - its outcome
is the le parameter, and it can be a throw: the action-attach step in this
file throws on the session-expired patterns.  Only when the reporter
returns is the telemetry-then-server-log chain built whose finally sets
exit code 1 and exits; a reporter throw rejects the handler before that
chain exists, so no exit decision fires here and the outer prefilter catch
is the backstop. -/
def errorFlow {Er A : Type} (t : TelemParams Er) (le : Except Er Unit) :
    Er → PM Er (Option A) :=
  fun _ =>
    pthen (pthen ([Ev.stopSpin], Except.ok ()) (fun _ => ([Ev.logErrorEv], le)))
      (fun _ =>
        pfinally
          (pthen (logCommandComplete t) (fun _ => ([Ev.serverLog], Except.ok (none : Option A))))
          ([Ev.exited 1], Except.ok ()))

/-- execCommand (utils.js lines 395-479) at the granularity of its promise
chain: validate, fetch the org config and show the pre-execute message
(external steps modeled as resolving), start the spinner, execute, then
either the success continuation followed by the exit decision with the
unchanged exit code 0, or the failure continuation; an outer finally stops
the spinner once more.  The Option result reflects that the failure branch
resolves with undefined.  validate and execute outcomes are the v and e
parameters; the success and error reporter outcomes are the ls and le
parameters (both are src code that can throw); the server error logger is
an external salesforce-alm collaborator modeled as total. -/
def execCommand {Er A : Type} (v : Except Er Unit) (e : Except Er A)
    (ls le : Except Er Unit) (t : TelemParams Er) : PM Er (Option A) :=
  pfinally
    (pcatch
      (pthen
        (pthen
          (pthen
            (pthen (pthen (pok ()) (fun _ => ([], v))) (fun _ => pok ()))
            (fun _ => ([Ev.startSpin], Except.ok ())))
          (fun _ => ([], e)))
        (fun a => pthen (successFlow t ls a) (fun oa => ([Ev.exited 0], Except.ok oa))))
      (errorFlow t le))
    ([Ev.stopSpin], Except.ok ())

/-- The tail of commandPreFilter (utils.js lines 545-551): an optional org
setup step, then the wrapped command (which runs execCommand), with a
catch that reports the error, sets exit code 1 and exits.  The schema
early-return path (lines 517-529) is unreachable for this repository
because its only command defines no schema.  The catch reporter is modeled
as total: the only rejections that escape execCommand are reporter throws,
whose localization-garble messages match neither attach pattern, so the
prefilter logError call cannot itself throw on them. -/
def commandPreFilter {Er A : Type} (org : Except Er Unit) (v : Except Er Unit)
    (e : Except Er A) (ls le : Except Er Unit) (t : TelemParams Er) : PM Er (Option A) :=
  pcatch (pthen ([], org) (fun _ => execCommand v e ls le t))
    (fun _ =>
      pthen ([Ev.logErrorEv], Except.ok ()) (fun _ => ([Ev.exited 1], Except.ok none)))

/-- A concrete telemetry parameterization with every collaborator
resolving, used by the concrete pipeline evaluations. -/
def demoTelem : TelemParams String :=
  { nowMs := 0, dayStartMs := 0, usageDate := "20260101",
    getConfig := Except.ok { startTime := some 0 },
    saveInit := Except.ok (), hubGetConfig := Except.ok "hub",
    analyticsStatus := 1, analyticsParsed := none,
    logServerUsages := fun _ => Except.ok (), saveAfterFlush := Except.ok () }

/-- The outcome of the success reporter on an empty-array result in human
mode, taken from the logSuccess embedding of this file: the throw of the
noResultsFound lookup. -/
def emptyArrayReporterOutcome : Except String Unit :=
  match logSuccess false none none none true (fun _ => 0) with
  | Except.ok _ => Except.ok ()
  | Except.error e => Except.error e

/-- A concrete usage record used by the witness evaluations: three prior
executions with running average 10. -/
def demoUsage : UsageRecord :=
  { commandName := "foo", toolbeltVersion := "1", hubOrgId := none,
    usageDate := "20260101", totalExecutions := 3, totalErrors := 0,
    avgRuntime := 10, minRuntime := 8, maxRuntime := 12 }

/-- A concrete analytics sample used by the witness evaluations. -/
def demoSample : CmdSample :=
  { command := "foo", version := "1", pluginVersion := none, runtime := 14, status := 0 }

/-- Is the action an exit decision (a call of the exit helper)? -/
def isExitEv : Ev → Bool
  | Ev.exited _ => true
  | _ => false

/-- The number of exit decisions in a run of the pipeline. -/
def exitCount (l : List Ev) : Nat := l.countP isExitEv

/-! ## Helper lemmas on the promise-chain semantics -/

/-- A computation with no actions and a handler that only resolves: the
catch keeps the actions and always resolves. -/
theorem pcatch_swallow {Er : Type} (m : PM Er Unit) :
    pcatch m (fun _ => pok ()) = (m.1, Except.ok ()) := by
  obtain ⟨l, r⟩ := m
  cases r with
  | ok u => cases u; rfl
  | error e => simp [pcatch, pok]

/-- pthen produces no actions when neither side does. -/
theorem pthen_fst_nil {Er A B : Type} (m : PM Er A) (f : A → PM Er B)
    (hm : m.1 = []) (hf : ∀ a, (f a).1 = []) : (pthen m f).1 = [] := by
  obtain ⟨l, r⟩ := m
  cases r with
  | ok a => simpa [pthen] using ⟨hm, hf a⟩
  | error e => simpa [pthen] using hm

/-- calcUsage performs no user-visible action. -/
theorem calcUsage_fst {Er : Type} (p : TelemParams Er) (hub : Option String) :
    (calcUsage p hub).1 = [] := by
  unfold calcUsage
  split
  · rfl
  · split <;> rfl

/-- The day-rollover flush performs no user-visible action. -/
theorem telemDayFlow_fst {Er : Type} (p : TelemParams Er) :
    (telemDayFlow p).1 = [] := by
  unfold telemDayFlow
  exact pthen_fst_nil _ _ (pthen_fst_nil _ _ rfl (fun o => calcUsage_fst p (some o)))
    (fun _ => rfl)

/-- The telemetry body performs no user-visible action. -/
theorem telemBody_fst {Er : Type} (p : TelemParams Er) (c : UsageContents) :
    (telemBody p c).1 = [] := by
  unfold telemBody
  obtain ⟨st⟩ := c
  cases st with
  | none => dsimp only; split
            · exact telemDayFlow_fst p
            · rfl
  | some s => dsimp only; split
              · exact telemDayFlow_fst p
              · rfl

/-- logCommandComplete always resolves and performs no user-visible
action: every rejection anywhere in the telemetry flow is swallowed by
the final catch, and the flow never touches the reported result. -/
theorem logCommandComplete_resolved {Er : Type} (p : TelemParams Er) :
    logCommandComplete p = ([], Except.ok ()) := by
  unfold logCommandComplete
  rw [pcatch_swallow]
  rw [pthen_fst_nil _ _ rfl (fun c => telemBody_fst p c)]

/-- Evaluation of the pipeline on the success path with a reporter that
returns normally (the error-reporter outcome is never consulted there). -/
theorem execCommand_ok_eval {Er A : Type} (a : A) (le : Except Er Unit)
    (t : TelemParams Er) :
    execCommand (Except.ok ()) (Except.ok a) (Except.ok ()) le t =
      ([Ev.startSpin, Ev.stopSpin, Ev.logSuccessEv, Ev.exited 0, Ev.stopSpin],
        Except.ok (some a)) := by
  simp [execCommand, successFlow, pthen, pcatch, pfinally, pok, logCommandComplete_resolved]

/-- Evaluation of the pipeline on the execution-failure path with an
error reporter that returns normally. -/
theorem execCommand_execFail_eval {Er A : Type} (er : Er) (ls : Except Er Unit)
    (t : TelemParams Er) :
    execCommand (A := A) (Except.ok ()) (Except.error er) ls (Except.ok ()) t =
      ([Ev.startSpin, Ev.stopSpin, Ev.logErrorEv, Ev.serverLog, Ev.exited 1, Ev.stopSpin],
        Except.ok none) := by
  simp [execCommand, errorFlow, pthen, pcatch, pfinally, pok, logCommandComplete_resolved]

/-- Evaluation of the pipeline on the validation-failure path with an
error reporter that returns normally. -/
theorem execCommand_validateFail_eval {Er A : Type} (er : Er) (e : Except Er A)
    (ls : Except Er Unit) (t : TelemParams Er) :
    execCommand (Except.error er) e ls (Except.ok ()) t =
      ([Ev.stopSpin, Ev.logErrorEv, Ev.serverLog, Ev.exited 1, Ev.stopSpin],
        Except.ok none) := by
  simp [execCommand, errorFlow, pthen, pcatch, pfinally, pok, logCommandComplete_resolved]

/-! ## Claim theorems -/

/-- C5: for every invocation of the command pipeline the exit decision is
reached exactly once, whatever the outcomes of the org-setup, validation
and execution stages, of the success and error reporters, and of every
telemetry collaborator - never zero times and never twice.  A reporter
throw skips the exit decision inside execCommand and the prefilter catch
supplies exactly one instead. -/
theorem exit_fires_exactly_once {Er A : Type} (org v ls le : Except Er Unit)
    (e : Except Er A) (t : TelemParams Er) :
    exitCount (commandPreFilter org v e ls le t).1 = 1 := by
  cases org <;> cases v <;> cases e <;> cases ls <;> cases le <;>
    simp [commandPreFilter, execCommand, successFlow, errorFlow, pthen, pcatch,
      pfinally, pok, logCommandComplete_resolved, exitCount, isExitEv]

/-- C6: every failure inside the telemetry completion flow is swallowed:
the telemetry step always resolves, and the run of the pipeline - its
user-visible actions, exit codes and settled result - does not depend on
any outcome inside the telemetry flow, whatever the validation, execution
and reporter outcomes are. -/
theorem telemetry_failures_swallowed {Er A : Type} (v ls le : Except Er Unit)
    (e : Except Er A) (p q : TelemParams Er) :
    (logCommandComplete p).2 = Except.ok () ∧
      execCommand v e ls le p = execCommand v e ls le q := by
  constructor
  · rw [logCommandComplete_resolved]
  · have hf : errorFlow (A := A) p le = errorFlow q le := by
      funext er
      simp [errorFlow, logCommandComplete_resolved]
    simp [execCommand, successFlow, hf, logCommandComplete_resolved]

/-- C10, counterexample to the unconditional passthrough: wiring the
success-reporter outcome to the logSuccess embedding at an empty-array
human-mode result (which throws the noResultsFound lookup failure), a
command whose execute resolved true ends with the invoker taking the
failure path: it resolves undefined with exit code 1, not the execute
value. -/
theorem execCommand_passthrough_not_unconditional :
    (execCommand (Except.ok ()) (Except.ok true) emptyArrayReporterOutcome
        (Except.ok ()) demoTelem).1 =
      [Ev.startSpin, Ev.stopSpin, Ev.logSuccessEv, Ev.stopSpin, Ev.logErrorEv,
        Ev.serverLog, Ev.exited 1, Ev.stopSpin] ∧
    (execCommand (Except.ok ()) (Except.ok true) emptyArrayReporterOutcome
        (Except.ok ()) demoTelem).2 = Except.ok none ∧
    (execCommand (Except.ok ()) (Except.ok true) emptyArrayReporterOutcome
        (Except.ok ()) demoTelem).2 ≠ Except.ok (some true) := by
  refine ⟨rfl, rfl, fun h => ?_⟩
  rw [show (execCommand (Except.ok ()) (Except.ok true) emptyArrayReporterOutcome
      (Except.ok ()) demoTelem).2 = Except.ok none from rfl] at h
  simp at h

/-- C10 (amended): on the success path, provided the success reporter
returns normally, the pipeline resolves with exactly the value the
execute stage resolved with; reporting, telemetry and the exit stage pass
the business result through unchanged. -/
theorem execCommand_success_passthrough {Er A : Type} (a : A) (le : Except Er Unit)
    (t : TelemParams Er) :
    (execCommand (Except.ok ()) (Except.ok a) (Except.ok ()) le t).2 =
      Except.ok (some a) := by
  rw [execCommand_ok_eval]

/-- C3, divergence of the code at the failing input: with a nonexistent
manifest path, the message key dataSplitFileNotFound does resolve to the
text Could not find specified file, but splitFiles passes that resolved
text to pluginError as a lookup key, so the factory itself throws a plain
Error carrying the localization-failure text instead of producing a
classified error with that message. -/
theorem split_notFound_error_is_localization_garble :
    getMessage "dataSplitFileNotFound" (some []) "data_split" =
      Except.ok "Could not find specified file" ∧
    dataSplitNotFoundThrown =
      Except.error (undefinedLabelMessage "default" "Could not find specified file" "en_US") :=
  ⟨rfl, rfl⟩

set_option maxRecDepth 10000 in
/-- C2, divergence of the code at the failing input: for a plan entry
listing a 1-record file followed by a 201-record file, the chunk files
written are big0.json and big200.json, yet the rewritten entry names only
those two chunks - the unchanged small file small.json is dropped because
breakupDataFile resets temparray after the small name was pushed. -/
theorem splitFiles_manifest_omits_small_file :
    (demoFolder "small.json").length ≤ 200 ∧
    (splitFilesRun demoFolder [["small.json", "big.json"]]).1.writes.map Prod.fst =
      ["big0.json", "big200.json"] ∧
    finalManifest demoFolder [["small.json", "big.json"]] =
      [["big0.json", "big200.json"]] := by
  refine ⟨by decide, by decide, by decide⟩

set_option maxRecDepth 10000 in
/-- C4, divergence of the code at the failing input: re-running the split
on a two-entry manifest whose files all hold at most 200 records writes no
data file, but rewrites both entries to the concatenated name list
a.json, b.json - temparray is never reset between entries and both
entries alias the same array - so the manifest is not left unchanged. -/
theorem splitFiles_not_idempotent_two_entries :
    (demoFolder "a.json").length ≤ 200 ∧
    (demoFolder "b.json").length ≤ 200 ∧
    (splitFilesRun demoFolder [["a.json"], ["b.json"]]).1.writes = [] ∧
    finalManifest demoFolder [["a.json"], ["b.json"]] =
      [["a.json", "b.json"], ["a.json", "b.json"]] ∧
    finalManifest demoFolder [["a.json"], ["b.json"]] ≠ [["a.json"], ["b.json"]] := by
  refine ⟨by decide, by decide, by decide, by decide, by decide⟩

/-- C8, divergence of the code at the failing input: for a token-based
session and an actionless error whose message is the literal pattern
Session expired or invalid, the attach step looks up the canned action
under invalidInstanceUrlForAccessTokenAction, a label absent from the
default bundle of this repository, so the reporter throws instead of
attaching the action. -/
theorem logError_action_attach_throws :
    logErrorActionStep true { message := "Session expired or invalid" } =
      Except.error
        (undefinedLabelMessage "default" "invalidInstanceUrlForAccessTokenAction" "en_US") :=
  rfl

/-- C9, divergence of the code at the failing input: in human mode, on a
successful command whose result is an empty array, the reporter looks up
noResultsFound, a label absent from the default bundle of this repository,
so it throws instead of printing a no-results message. -/
theorem logSuccess_empty_array_throws :
    logSuccess false none none none true (fun _ => 0) =
      Except.error (undefinedLabelMessage "default" "noResultsFound" "en_US") :=
  rfl

theorem breakupFor_length {α : Type} (pre ext : String) (rs : List α) :
    ∀ (fuel i : Nat), rs.length ≤ i + fuel →
      (breakupFor pre ext rs fuel i).length = (rs.length - i + 199) / 200 := by
  intro fuel
  induction fuel with
  | zero => intro i h; simp only [breakupFor, List.length_nil]; omega
  | succ n ih =>
      intro i h
      simp only [breakupFor]
      split
      · rename_i hi
        simp only [List.length_cons, ih (i + 200) (by omega)]
        omega
      · rename_i hi
        simp only [List.length_nil]
        omega

theorem breakupFor_flatten {α : Type} (pre ext : String) (rs : List α) :
    ∀ (fuel i : Nat), rs.length ≤ i + fuel →
      ((breakupFor pre ext rs fuel i).map Prod.snd).flatten = rs.drop i := by
  intro fuel
  induction fuel with
  | zero =>
      intro i h
      simp only [breakupFor, List.map_nil, List.flatten_nil]
      exact (List.drop_eq_nil_of_le h).symm
  | succ n ih =>
      intro i h
      simp only [breakupFor]
      split
      · rename_i hi
        simp only [List.map_cons, List.flatten_cons, ih (i + 200) (by omega)]
        rw [show i + 200 = i + 200 from rfl, ← List.drop_drop]
        exact List.take_append_drop 200 (rs.drop i)
      · rename_i hi
        simp only [List.map_nil, List.flatten_nil]
        exact (List.drop_eq_nil_of_le (by omega)).symm

theorem breakupFor_lt_of_ne_nil {α : Type} (pre ext : String) (rs : List α)
    (fuel i : Nat) (h : breakupFor pre ext rs fuel i ≠ []) : i < rs.length := by
  cases fuel with
  | zero => simp [breakupFor] at h
  | succ n =>
      by_cases hi : i < rs.length
      · exact hi
      · simp [breakupFor, hi] at h

theorem breakupFor_dropLast {α : Type} (pre ext : String) (rs : List α) :
    ∀ (fuel i : Nat), rs.length ≤ i + fuel →
      ∀ c ∈ ((breakupFor pre ext rs fuel i).map Prod.snd).dropLast, c.length = 200 := by
  intro fuel
  induction fuel with
  | zero => intro i h c hc; simp [breakupFor] at hc
  | succ n ih =>
      intro i h c hc
      by_cases hi : i < rs.length
      · simp only [breakupFor, if_pos hi, List.map_cons] at hc
        by_cases hrest : breakupFor pre ext rs n (i + 200) = []
        · rw [hrest] at hc
          simp at hc
        · have hmap : (breakupFor pre ext rs n (i + 200)).map Prod.snd ≠ [] := by
            simpa using hrest
          rw [List.dropLast_cons_of_ne_nil hmap] at hc
          rcases List.mem_cons.1 hc with hc1 | hc2
          · have hlt : i + 200 < rs.length :=
              breakupFor_lt_of_ne_nil pre ext rs n (i + 200) hrest
            subst hc1
            simp only [List.length_take, List.length_drop]
            omega
          · exact ih (i + 200) (by omega) c hc2
      · simp [breakupFor, hi] at hc

theorem breakupPieces_length {α : Type} (pre ext : String) (rs : List α) :
    (breakupPieces pre ext rs).length = (rs.length + 199) / 200 := by
  have := breakupFor_length pre ext rs rs.length 0 (by omega)
  simpa [breakupPieces] using this

theorem breakupPieces_flatten {α : Type} (pre ext : String) (rs : List α) :
    ((breakupPieces pre ext rs).map Prod.snd).flatten = rs := by
  have := breakupFor_flatten pre ext rs rs.length 0 (by omega)
  simpa [breakupPieces] using this

theorem breakupPieces_dropLast {α : Type} (pre ext : String) (rs : List α) :
    ∀ c ∈ ((breakupPieces pre ext rs).map Prod.snd).dropLast, c.length = 200 := by
  have := breakupFor_dropLast pre ext rs rs.length 0 (by omega)
  simpa [breakupPieces] using this



theorem getD_set_self {β : Type} (l : List β) (i : Nat) (x d : β) (h : i < l.length) :
    (l.set i x).getD i d = x := by
  induction l generalizing i with
  | nil => simp at h
  | cons a as ih =>
      cases i with
      | zero => rfl
      | succ j => simpa [List.set, List.getD] using ih j (by simpa using h)

theorem set_getD_self {β : Type} (l : List β) (i : Nat) (d : β) (h : i < l.length) :
    l.set i (l.getD i d) = l := by
  induction l generalizing i with
  | nil => simp at h
  | cons a as ih =>
      cases i with
      | zero => rfl
      | succ j => simpa [List.set, List.getD] using ih j (by simpa using h)

theorem getD_append_last {β : Type} (l : List β) (x d : β) :
    (l ++ [x]).getD l.length d = x := by
  induction l with
  | nil => rfl
  | cons a as ih => simp [List.getD, ih]

theorem set_append_last {β : Type} (l : List β) (x y : β) :
    (l ++ [x]).set l.length y = l ++ [y] := by
  induction l with
  | nil => rfl
  | cons a as ih => simp [List.set, ih]

theorem foldl_writeDataFile_spec {α : Type} (pieces : List (String × List α)) :
    ∀ (s : SplitState α), s.cur < s.objs.length →
      pieces.foldl writeDataFile s =
        { objs := s.objs.set s.cur (s.objs.getD s.cur [] ++ pieces.map Prod.fst),
          cur := s.cur,
          writes := s.writes ++ pieces } := by
  induction pieces with
  | nil =>
      intro s h
      obtain ⟨o, c, w⟩ := s
      simp only [List.foldl_nil, List.map_nil, List.append_nil]
      rw [set_getD_self o c [] (by simpa using h)]
  | cons p ps ih =>
      intro s h
      simp only [List.foldl_cons]
      rw [ih (writeDataFile s p) (by simpa [writeDataFile, pushName] using h)]
      simp only [writeDataFile, pushName]
      rw [getD_set_self _ _ _ _ h, List.set_set]
      simp [List.append_assoc]

theorem breakupDataFile_large {α : Type} (folder : String → List α) (f : String)
    (s : SplitState α) (h : 200 < (folder f).length) :
    breakupDataFile folder f s =
      { objs := s.objs ++
          [(breakupPieces (chunkNameParts f).1 (chunkNameParts f).2 (folder f)).map Prod.fst],
        cur := s.objs.length,
        writes := s.writes ++
          breakupPieces (chunkNameParts f).1 (chunkNameParts f).2 (folder f) } := by
  unfold breakupDataFile
  rw [if_neg (by omega)]
  rw [foldl_writeDataFile_spec _ (rebindTemp s) (by simp [rebindTemp])]
  simp [rebindTemp, getD_append_last, set_append_last]

/-- C1: for every data file referenced by the manifest, splitting writes
ceil(N/200) chunk files when the record collection has length N > 200,
every chunk except possibly the last holds exactly 200 records, and the
in-order concatenation of the chunk record lists equals the original
collection; when N is at most 200 no file is written and the name pushed
for the manifest is the original file name. -/
theorem breakupDataFile_chunk_spec {α : Type} (folder : String → List α) (f : String)
    (s : SplitState α) :
    ((folder f).length ≤ 200 →
        (breakupDataFile folder f s).writes = s.writes ∧
        (breakupDataFile folder f s).objs =
          s.objs.set s.cur (s.objs.getD s.cur [] ++ [f])) ∧
    (200 < (folder f).length →
        (breakupDataFile folder f s).writes =
          s.writes ++ breakupPieces (chunkNameParts f).1 (chunkNameParts f).2 (folder f) ∧
        (breakupPieces (chunkNameParts f).1 (chunkNameParts f).2 (folder f)).length =
          ((folder f).length + 199) / 200 ∧
        ((breakupPieces (chunkNameParts f).1 (chunkNameParts f).2 (folder f)).map
            Prod.snd).flatten = folder f ∧
        (∀ c ∈ ((breakupPieces (chunkNameParts f).1 (chunkNameParts f).2
            (folder f)).map Prod.snd).dropLast, c.length = 200)) := by
  constructor
  · intro h
    unfold breakupDataFile
    rw [if_pos h]
    exact ⟨rfl, rfl⟩
  · intro h
    refine ⟨?_, breakupPieces_length _ _ _, breakupPieces_flatten _ _ _,
      breakupPieces_dropLast _ _ _⟩
    rw [breakupDataFile_large folder f s h]

set_option maxRecDepth 10000 in
/-- Witness for the chunking theorem at the demonstration folder: the
1-record file keeps its writes untouched, and the 201-record file yields
ceil(201/200) = 2 chunk files. -/
theorem breakupDataFile_chunk_spec_witness :
    ((demoFolder "small.json").length ≤ 200 ∧
      (breakupDataFile demoFolder "small.json" initSplitState).writes =
        (initSplitState (α := Unit)).writes) ∧
    (200 < (demoFolder "big.json").length ∧
      (breakupPieces (chunkNameParts "big.json").1 (chunkNameParts "big.json").2
          (demoFolder "big.json")).length = ((demoFolder "big.json").length + 199) / 200) := by
  refine ⟨⟨by decide, ?_⟩, ⟨by decide, ?_⟩⟩
  · exact ((breakupDataFile_chunk_spec demoFolder "small.json" initSplitState).1
      (by decide)).1
  · exact ((breakupDataFile_chunk_spec demoFolder "big.json" initSplitState).2
      (by decide)).2.1



theorem jsRoundDiv_eq_round (p : Int) (q : Nat) (h : 0 < q) :
    jsRoundDiv p q = round ((p : ℚ) / (q : ℚ)) := by
  rw [round_eq]
  unfold jsRoundDiv
  have hq : (q : ℚ) ≠ 0 := by exact_mod_cast h.ne.symm
  have harg : (p : ℚ) / (q : ℚ) + 1 / 2 = ((2 * p + q : ℤ) : ℚ) / ((2 * q : ℕ) : ℚ) := by
    push_cast
    field_simp
    ring
  rw [harg, Rat.floor_intCast_div_natCast]

theorem lookup_cons_self (k : String) (v : UsageRecord) (l : List (String × UsageRecord)) :
    ((k, v) :: l).lookup k = some v := by
  simp [List.lookup]

theorem lookup_cons_ne (k : String) (p : String × UsageRecord)
    (l : List (String × UsageRecord)) (h : p.1 ≠ k) :
    (p :: l).lookup k = l.lookup k := by
  obtain ⟨a, b⟩ := p
  rw [List.lookup]
  have hb : (k == a) = false := beq_eq_false_iff_ne.mpr fun he => h (by simp [he])
  rw [hb]

theorem lookup_map_replace (l : List (String × UsageRecord)) (k : String) (v : UsageRecord)
    (hs : (l.lookup k).isSome) :
    (l.map (fun p => if p.1 = k then (k, v) else p)).lookup k = some v := by
  induction l with
  | nil => simp [List.lookup] at hs
  | cons p ps ih =>
      by_cases hp : p.1 = k
      · simp only [List.map_cons, if_pos hp]
        exact lookup_cons_self k v _
      · simp only [List.map_cons, if_neg hp]
        rw [lookup_cons_ne k p _ hp] at hs
        rw [lookup_cons_ne k p _ hp]
        exact ih hs

theorem lookup_append_key (l : List (String × UsageRecord)) (k : String) (v : UsageRecord)
    (hn : l.lookup k = none) :
    (l ++ [(k, v)]).lookup k = some v := by
  induction l with
  | nil => simp [List.lookup]
  | cons p ps ih =>
      by_cases hp : p.1 = k
      · obtain ⟨a, b⟩ := p
        subst hp
        rw [lookup_cons_self] at hn
        exact absurd hn (by simp)
      · rw [List.cons_append, lookup_cons_ne k p _ hp]
        rw [lookup_cons_ne k p _ hp] at hn
        exact ih hn

theorem lookup_setUsage (l : List (String × UsageRecord)) (k : String) (v : UsageRecord) :
    (setUsage l k v).lookup k = some v := by
  unfold setUsage
  split
  · rename_i hs
    exact lookup_map_replace l k v hs
  · rename_i hs
    apply lookup_append_key
    cases hl : l.lookup k with
    | none => rfl
    | some u => rw [hl] at hs; simp at hs

/-- C7: inserting a runtime sample into a usage record with n prior
executions updates the running average to round((runtime + avg n) / (n+1))
with n the pre-increment execution count, and increments the count only
after the average is updated. -/
theorem usage_running_average_update (hub : Option String) (d : String)
    (usages : List (String × UsageRecord)) (c : CmdSample) (u : UsageRecord)
    (h : usages.lookup (commandVersionKey c).1 = some u) :
    ∃ u2, (applyCommand hub d usages c).lookup (commandVersionKey c).1 = some u2 ∧
      u2.avgRuntime =
        round (((c.runtime : ℚ) + (u.avgRuntime : ℚ) * (u.totalExecutions : ℚ)) /
          ((u.totalExecutions : ℚ) + 1)) ∧
      u2.totalExecutions = u.totalExecutions + 1 := by
  have hq := jsRoundDiv_eq_round (c.runtime + u.avgRuntime * u.totalExecutions)
    (u.totalExecutions + 1) (Nat.succ_pos _)
  simp only [applyCommand]
  rw [h]
  refine ⟨_, lookup_setUsage _ _ _, ?_, ?_⟩
  · split_ifs <;>
      simp only [] <;>
      rw [hq] <;>
      · congr 1
        push_cast
        ring
  · split_ifs <;> rfl

set_option maxRecDepth 2000 in
/-- Witness for the running-average theorem at a concrete record: three
prior executions with average 10 and a new 14 ms sample. -/
theorem usage_running_average_update_witness :
    [("foo-1", demoUsage)].lookup (commandVersionKey demoSample).1 = some demoUsage ∧
    ∃ u2, (applyCommand none "20260101" [("foo-1", demoUsage)] demoSample).lookup
        (commandVersionKey demoSample).1 = some u2 ∧
      u2.avgRuntime =
        round (((demoSample.runtime : ℚ) + (demoUsage.avgRuntime : ℚ) *
          (demoUsage.totalExecutions : ℚ)) / ((demoUsage.totalExecutions : ℚ) + 1)) ∧
      u2.totalExecutions = demoUsage.totalExecutions + 1 :=
  ⟨by decide,
    usage_running_average_update none "20260101" [("foo-1", demoUsage)] demoSample demoUsage
      (by decide)⟩

end SfdxSplit
